import Mathlib

/-!
Verification development for the Scarab terminal repository.

The repository consists of a bootstrap script (`bootstrap_scarab.py`) that
generates a Rust workspace: documentation, Cargo manifests, and the skeletons
of the `scarab-protocol`, `scarab-daemon`, `scarab-client`, `fusabi-vm` and
`fusabi-interpreter` crates.  This file embeds, shallowly:

* the file-writing behaviour of the bootstrap script (`write_file`, `main`);
* the declarations the script generates into `crates/scarab-protocol/src/lib.rs`
  (`Cell`, `SharedState`, `ControlMessage`, the grid constants);
* models, built from the design document, of the parts of the core whose Rust
  bodies the generator leaves as TODO comments: the seqlock double-buffer
  store shared between daemon and client, the terminal emulation engine, and
  the length-delimited control-channel framing.

Theorems about these definitions settle the specification's claims.
-/

namespace Scarab

/-! Python-side model: `write_file` and `main` of `bootstrap_scarab.py`. -/

/-- Python `str.strip()` whitespace test, for the ASCII whitespace characters
(space, tab, newline, carriage return, vertical tab, form feed). -/
def isPySpace (c : Char) : Bool :=
  c = ' ' || c = '\t' || c = '\n' || c = '\r' || c = '\x0b' || c = '\x0c'

/-- Python `content.strip()` on a character list: drop whitespace from both
ends. -/
def pyStrip (s : List Char) : List Char :=
  ((s.dropWhile isPySpace).reverse.dropWhile isPySpace).reverse

/-- The bytes `write_file` writes for a given `content` argument:
`f.write(content.strip() + "\n")` (line 9 of `bootstrap_scarab.py`). -/
def write_file_content (content : List Char) : List Char :=
  pyStrip content ++ ['\n']

/-- Does a path begin with a path separator (an absolute POSIX path)? -/
def startsWithSlash (b : List Char) : Bool :=
  match b with
  | '/' :: _ => true
  | _ => false

/-- Model of `os.path.join(a, b)` for POSIX paths: an absolute second
component discards the first, otherwise the components are joined with a
separator. -/
def os_path_join (a b : List Char) : List Char :=
  if startsWithSlash b then b else a ++ '/' :: b

/-- The full path `write_file` writes to:
`os.path.join("scarab", path)` (line 6 of `bootstrap_scarab.py`). -/
def write_file_path (p : List Char) : List Char :=
  os_path_join "scarab".data p

/-- The sixteen path arguments `main` passes to `write_file`, in call order
(lines 373-394 of `bootstrap_scarab.py`). -/
def mainPaths : List String :=
  ["docs/architecture_report.md",
   "README.md",
   "CLAUDE_PROMPT.md",
   "Cargo.toml",
   "crates/scarab-protocol/src/lib.rs",
   "crates/scarab-protocol/Cargo.toml",
   "crates/scarab-daemon/src/main.rs",
   "crates/scarab-daemon/Cargo.toml",
   "crates/scarab-client/src/main.rs",
   "crates/scarab-client/Cargo.toml",
   "crates/fusabi-vm/src/lib.rs",
   "crates/fusabi-vm/Cargo.toml",
   "crates/fusabi-interpreter/src/lib.rs",
   "crates/fusabi-interpreter/Cargo.toml",
   "crates/scarab-plugin-api/src/lib.rs",
   "crates/scarab-plugin-api/Cargo.toml"]

/-- One `write_file` call as a file-system update: open in truncating write
mode, so the file's new contents are exactly `c`, independent of any previous
contents. -/
def fsWrite (p c : String) (fs : String → Option String) : String → Option String :=
  fun q => if q = p then some c else fs q

/-- Run a sequence of `write_file` calls, in order, against a file system. -/
def runScript (script : List (String × String)) (fs : String → Option String) :
    String → Option String :=
  script.foldl (fun acc pc => fsWrite pc.1 pc.2 acc) fs

/-- The write script of `main`: the i-th call writes the i-th path of
`mainPaths` with a fixed literal content.  The contents are the string
literals of `bootstrap_scarab.py`, abstracted here as an arbitrary but fixed
assignment `content : Nat → String`; nothing in `main` reads file-system
state, so each call's content is independent of the file system. -/
def mainScript (content : Nat → String) : List (String × String) :=
  (List.range mainPaths.length).map (fun i => (mainPaths.getD i "", content i))

/-- Running `main` against a file system: fold its sixteen writes. -/
def runMain (content : Nat → String) (fs : String → Option String) :
    String → Option String :=
  runScript (mainScript content) fs

/-! Generated Rust declarations: `crates/scarab-protocol/src/lib.rs` as the
bootstrap script emits it (lines 147-192 of `bootstrap_scarab.py`). -/

/-- A field of a generated Rust struct or enum variant: its name and its
type as written, `none` when the generator leaves the type out. -/
structure RField where
  fname : String
  ftype : Option String
  deriving DecidableEq, Repr

/-- A generated Rust struct declaration: whether it is `#[repr(C)]`, its
derive list, and its fields in declaration order. -/
structure RStruct where
  reprC : Bool
  derives : List String
  fields : List RField
  deriving DecidableEq, Repr

/-- The generated `Cell` struct: `#[repr(C)]`, deriving
`Copy, Clone, Pod, Zeroable`, with fields `char_codepoint: u32`, `fg: u32`
(RGBA), `bg: u32` (RGBA), `flags: u8`, `_padding: [u8; 3]`. -/
def Cell_decl : RStruct :=
  ⟨true,
   ["Copy", "Clone", "Pod", "Zeroable"],
   [⟨"char_codepoint", some "u32"⟩,
    ⟨"fg", some "u32"⟩,
    ⟨"bg", some "u32"⟩,
    ⟨"flags", some "u8"⟩,
    ⟨"_padding", some "[u8; 3]"⟩]⟩

/-- The generated `SharedState` struct: `#[repr(C)]`, deriving
`Copy, Clone, Pod, Zeroable`, with fields `sequence_number: u64`,
`dirty_flag: u8`, `cursor_x: u16`, `cursor_y: u16`, `_padding: [u8; 3]`, and
the buffer field emitted as `pub cells:,` — a field named `cells` with no
type at all (the generator truncates the declaration). -/
def SharedState_decl : RStruct :=
  ⟨true,
   ["Copy", "Clone", "Pod", "Zeroable"],
   [⟨"sequence_number", some "u64"⟩,
    ⟨"dirty_flag", some "u8"⟩,
    ⟨"cursor_x", some "u16"⟩,
    ⟨"cursor_y", some "u16"⟩,
    ⟨"_padding", some "[u8; 3]"⟩,
    ⟨"cells", none⟩]⟩

/-- The generated `ControlMessage` enum: its variants with their fields, in
declaration order. -/
def ControlMessage_variants : List (String × List RField) :=
  [("Resize", [⟨"cols", some "u16"⟩, ⟨"rows", some "u16"⟩]),
   ("Input", [⟨"data", some "alloc::vec::Vec<u8>"⟩]),
   ("LoadPlugin", [⟨"path", some "alloc::string::String"⟩])]

/-- Generated constant `GRID_WIDTH` (line 155 of `bootstrap_scarab.py`). -/
def GRID_WIDTH : Nat := 200

/-- Generated constant `GRID_HEIGHT` (line 156 of `bootstrap_scarab.py`). -/
def GRID_HEIGHT : Nat := 100

/-- Generated constant `BUFFER_SIZE = GRID_WIDTH * GRID_HEIGHT` (line 157 of
`bootstrap_scarab.py`). -/
def BUFFER_SIZE : Nat := GRID_WIDTH * GRID_HEIGHT

/-- Byte size of the primitive Rust types used by the generated structs. -/
def rustSize (t : String) : Option Nat :=
  if t = "u8" then some 1
  else if t = "u16" then some 2
  else if t = "u32" then some 4
  else if t = "u64" then some 8
  else if t = "[u8; 3]" then some 3
  else none

/-- Total byte size of a generated struct's fields laid out in order
(defined only when every field has a sized type). -/
def declSize (d : RStruct) : Option Nat :=
  d.fields.foldl
    (fun acc f =>
      match acc, f.ftype.bind rustSize with
      | some a, some b => some (a + b)
      | _, _ => none)
    (some 0)

/-! Modelled core.  The Rust bodies of the daemon's publish path, the
client's `sync_grid`, and the emulation engine are left as TODO comments by
the generator; the following definitions model them from the design
document. -/

/-- Modelled from the spec: one screen cell of the Cell Grid Model —
codepoint, packed foreground and background colors, style flags (§3). -/
structure CellM where
  codepoint : Nat
  fg : Nat
  bg : Nat
  flags : Nat
  deriving DecidableEq, Repr, Inhabited

/-- Modelled from the spec: a Grid's cell array is a fixed-size
two-dimensional `GRID_WIDTH × GRID_HEIGHT` array of Cells, stored row-major
as `BUFFER_SIZE` cells (§3, and the generated `BUFFER_SIZE` constant). -/
def GridM : Type := { l : List CellM // l.length = BUFFER_SIZE }

/-- Modelled from the spec: the shared-memory root visible to both
processes — the sequence counter and the two buffer slots of the
double-buffer protocol (§3 SharedState).  Cursor and dirty metadata are
omitted; they play no part in the slot-selection protocol. -/
structure Store where
  seq : Nat
  slot0 : List CellM
  slot1 : List CellM
  deriving DecidableEq, Repr

/-- The buffer slot selected by the low bit of a counter value: slot
`b % 2`. -/
def slotOf (s : Store) (b : Nat) : List CellM :=
  if b % 2 = 0 then s.slot0 else s.slot1

/-- Modelled from the spec: one atomic machine step of the publisher
(§4.2), relative to the ghost history `pub` of published grids, `pub k`
being the grid committed by the k-th publish.  Either a write of cell data
into the inactive slot `1 - (seq & 1)` (which may leave that slot in any
intermediate state but never touches the active slot or the counter), or
the commit that increments `sequence_number` after the inactive slot holds
the next published grid in full (release ordering is modelled by the commit
step carrying the completed-slot condition). -/
def WStep (pub : Nat → List CellM) (s t : Store) : Prop :=
  (t.seq = s.seq ∧ slotOf t s.seq = slotOf s s.seq) ∨
  (t.seq = s.seq + 1 ∧ slotOf t t.seq = pub t.seq ∧ slotOf t s.seq = slotOf s s.seq)

/-- Modelled from the spec: the correctness invariant of the double buffer —
the slot selected by the low bit of `sequence_number` is the stable,
fully-written grid of the latest publish (§3 SharedState invariant). -/
def Inv (pub : Nat → List CellM) (s : Store) : Prop :=
  slotOf s s.seq = pub s.seq

/-- Modelled from the spec: the snapshot a seqlock-style reader assembles
(§4.3) along a trace of store states.  The reader read `s1` as the sequence
number at the start of the copy; cell `i` is copied out of slot `s1 & 1` at
the (possibly later) trace instant `f i`. -/
def snapshotRead (trace : Nat → Store) (s1 : Nat) (f : Nat → Nat) (n : Nat) :
    List CellM :=
  List.ofFn (fun i : Fin n => (slotOf (trace (f i)) s1).getD i default)

/-! Modelled terminal emulation engine (spec §4.1): an explicit
escape-sequence state machine over a byte stream — ground state, escape,
CSI parameter collection, OSC string collection — with cursor movement,
scrolling, and SGR style state. -/

/-- Modelled from the spec: the escape-sequence machine states (§4.1,
§9). -/
inductive PState where
  | ground : PState
  | esc : PState
  | csi : List Nat → Nat → PState
  | osc : PState
  deriving DecidableEq, Repr

/-- Modelled from the spec: the emulator state — grid dimensions, the rows
of cells, cursor position, current SGR attributes, and the persistent
escape-machine state (§4.1). -/
structure Emu where
  width : Nat
  height : Nat
  rows : List (List CellM)
  cx : Nat
  cy : Nat
  curFg : Nat
  curBg : Nat
  curFlags : Nat
  pstate : PState
  deriving DecidableEq, Repr

/-- An empty/untouched cell: codepoint 0 (§3). -/
def blankCell : CellM := ⟨0, 0, 0, 0⟩

/-- A freshly exposed row of empty cells (§4.1 scrolling). -/
def blankRow (w : Nat) : List CellM := List.replicate w blankCell

/-- Write a printable codepoint at the cursor with the current attributes
and advance the cursor (clamped at the right margin). -/
def putCell (e : Emu) (cp : Nat) : Emu :=
  let row := e.rows.getD e.cy []
  let row2 := row.set e.cx ⟨cp, e.curFg, e.curBg, e.curFlags⟩
  { e with rows := e.rows.set e.cy row2, cx := min (e.cx + 1) e.width }

/-- Line feed: move down; at the bottom, scroll — shift rows up and fill
the newly exposed bottom row with empty cells (§4.1). -/
def lineFeed (e : Emu) : Emu :=
  if e.cy + 1 < e.height then { e with cy := e.cy + 1 }
  else { e with rows := e.rows.drop 1 ++ [blankRow e.width] }

/-- Apply one SGR parameter: 0 resets attributes, 1 sets bold, 4 underline,
7 inverse, 30-37 select the foreground color, 40-47 the background;
anything else is ignored. -/
def applySGR1 (e : Emu) (p : Nat) : Emu :=
  if p = 0 then { e with curFg := 0, curBg := 0, curFlags := 0 }
  else if p = 1 then { e with curFlags := e.curFlags ||| 1 }
  else if p = 4 then { e with curFlags := e.curFlags ||| 2 }
  else if p = 7 then { e with curFlags := e.curFlags ||| 4 }
  else if 30 ≤ p ∧ p ≤ 37 then { e with curFg := p - 30 }
  else if 40 ≤ p ∧ p ≤ 47 then { e with curBg := p - 40 }
  else e

/-- Dispatch a completed CSI sequence: `m` applies SGR parameters, `H`
moves the cursor (1-based row;column); unrecognized final bytes are
consumed and ignored (§4.1). -/
def csiDispatch (e : Emu) (params : List Nat) (cur : Nat) (b : Nat) : Emu :=
  let ps := params ++ [cur]
  if b = 109 then ps.foldl applySGR1 e
  else if b = 72 then
    { e with cy := min (ps.getD 0 1 - 1) (e.height - 1),
             cx := min (ps.getD 1 1 - 1) (e.width - 1) }
  else e

/-- Modelled from the spec: one byte of the emulation engine's transition
function (§4.1).  Ground state handles control characters (bell, backspace,
carriage return, line feed) and printable bytes; ESC enters the escape
state; CSI collects numeric parameters until a final byte; OSC collects and
ignores until a BEL terminator; malformed input always recovers to
ground. -/
def emuStep (e : Emu) (b : Nat) : Emu :=
  match e.pstate with
  | .ground =>
      if b = 27 then { e with pstate := .esc }
      else if b = 13 then { e with cx := 0 }
      else if b = 10 then lineFeed e
      else if b = 8 then { e with cx := e.cx - 1 }
      else if b = 7 then e
      else if 32 ≤ b then putCell e b
      else e
  | .esc =>
      if b = 91 then { e with pstate := .csi [] 0 }
      else if b = 93 then { e with pstate := .osc }
      else { e with pstate := .ground }
  | .csi params cur =>
      if 48 ≤ b ∧ b ≤ 57 then { e with pstate := .csi params (cur * 10 + (b - 48)) }
      else if b = 59 then { e with pstate := .csi (params ++ [cur]) 0 }
      else if 64 ≤ b ∧ b ≤ 126 then { csiDispatch e params cur b with pstate := .ground }
      else { e with pstate := .ground }
  | .osc =>
      if b = 7 then { e with pstate := .ground }
      else e

/-- Modelled from the spec: `feed(bytes)` — run the transition function
over a byte chunk; partial-sequence state persists between calls inside
`pstate` (§4.1). -/
def feed (e : Emu) (bs : List Nat) : Emu := bs.foldl emuStep e

/-! Modelled control channel (spec §4.4, §6): the `ControlMessage` variants
the generator emits, framed as `[u32 length][tag byte][payload]`. -/

/-- The `ControlMessage` variants of the generated
`crates/scarab-protocol/src/lib.rs`: `Resize{cols,rows}`, `Input{data}`,
`LoadPlugin{path}`, with the u16/byte-vector/string payloads modelled as
naturals and byte lists. -/
inductive ControlMessage where
  | Resize : Nat → Nat → ControlMessage
  | Input : List Nat → ControlMessage
  | LoadPlugin : List Nat → ControlMessage
  deriving DecidableEq, Repr

/-- Little-endian two-byte encoding of a u16 value. -/
def u16le (n : Nat) : List Nat := [n % 256, n / 256 % 256]

/-- Little-endian four-byte encoding of a u32 value. -/
def u32le (n : Nat) : List Nat :=
  [n % 256, n / 256 % 256, n / 65536 % 256, n / 16777216 % 256]

/-- The tag byte of each `ControlMessage` variant, in declaration order. -/
def tagOf : ControlMessage → Nat
  | .Resize _ _ => 0
  | .Input _ => 1
  | .LoadPlugin _ => 2

/-- The serialized payload of a `ControlMessage`. -/
def payloadOf : ControlMessage → List Nat
  | .Resize c r => u16le c ++ u16le r
  | .Input d => d
  | .LoadPlugin p => p

/-- Modelled from the spec: one control-channel frame —
`[u32 length][tag byte][payload]` (§6). -/
def encodeFrame (m : ControlMessage) : List Nat :=
  u32le (payloadOf m).length ++ tagOf m :: payloadOf m

/-- Modelled from the spec: read one length-delimited frame off the front
of a byte stream, returning the decoded message and the remaining bytes. -/
def decodeFrame : List Nat → Option (ControlMessage × List Nat)
  | b0 :: b1 :: b2 :: b3 :: t :: rest =>
      let len := b0 + 256 * b1 + 65536 * b2 + 16777216 * b3
      if len ≤ rest.length then
        let pl := rest.take len
        let rest2 := rest.drop len
        if t = 0 then
          match pl with
          | [c0, c1, r0, r1] => some (.Resize (c0 + 256 * c1) (r0 + 256 * r1), rest2)
          | _ => none
        else if t = 1 then some (.Input pl, rest2)
        else if t = 2 then some (.LoadPlugin pl, rest2)
        else none
      else none
  | _ => none

/-- A message whose payload fits the frame format: u16 fields below 2^16 and
a payload length below 2^32. -/
def validMsg : ControlMessage → Bool
  | .Resize c r => decide (c < 65536) && decide (r < 65536)
  | .Input d => decide (d.length < 4294967296)
  | .LoadPlugin p => decide (p.length < 4294967296)

/-- Decode a whole stream of frames, in order; `fuel` bounds the number of
frames (one unit per frame suffices). -/
def decodeStream : Nat → List Nat → Option (List ControlMessage)
  | 0, bs => if bs = [] then some [] else none
  | fuel + 1, bs =>
      if bs = [] then some []
      else
        match decodeFrame bs with
        | some (m, rest) => (decodeStream fuel rest).map (fun ms => m :: ms)
        | none => none

/-! Helper lemmas. -/

/-- The head of `dropWhile p` never satisfies `p`. -/
theorem head?_dropWhile_not {α : Type} (p : α → Bool) :
    ∀ (l : List α) (c : α), (l.dropWhile p).head? = some c → p c = false := by
  intro l
  induction l with
  | nil => intro c h; simp [List.dropWhile] at h
  | cons a t ih =>
      intro c h
      by_cases hp : p a
      · rw [List.dropWhile_cons, if_pos hp] at h
        exact ih c h
      · rw [List.dropWhile_cons, if_neg hp] at h
        simp only [List.head?_cons, Option.some.injEq] at h
        rw [← h]
        exact Bool.eq_false_iff.mpr hp

/-- The last character of a stripped string is not whitespace. -/
theorem getLast?_pyStrip (s : List Char) (c : Char)
    (h : (pyStrip s).getLast? = some c) : isPySpace c = false := by
  unfold pyStrip at h
  rw [List.getLast?_reverse] at h
  exact head?_dropWhile_not isPySpace _ c h

/-- A stripped string is a prefix of its left-stripped form. -/
theorem pyStrip_prefix (s : List Char) :
    pyStrip s <+: s.dropWhile isPySpace := by
  have hsuf : ((s.dropWhile isPySpace).reverse.dropWhile isPySpace) <:+
      (s.dropWhile isPySpace).reverse := List.dropWhile_suffix isPySpace
  have := List.reverse_prefix.mpr hsuf
  simpa [pyStrip] using this

/-- The first character of a stripped string is not whitespace. -/
theorem head?_pyStrip (s : List Char) (c : Char)
    (h : (pyStrip s).head? = some c) : isPySpace c = false := by
  rcases hps : pyStrip s with _ | ⟨a, tl⟩
  · rw [hps] at h; simp at h
  · rw [hps] at h
    simp only [List.head?_cons, Option.some.injEq] at h
    have hpre := pyStrip_prefix s
    rw [hps] at hpre
    obtain ⟨r, hr⟩ := hpre
    have hu : (s.dropWhile isPySpace).head? = some a := by
      rw [← hr]; rfl
    rw [← h]
    exact head?_dropWhile_not isPySpace _ a hu

/-- C8: `write_file` writes exactly the given content with leading and
trailing whitespace stripped followed by a single trailing newline: the
written bytes are `strip(content) ++ "\n"`, they end in a newline, the
character before that final newline (when one exists) is not whitespace —
in particular not another newline, so the trailing newline is unique — and
when the stripped content is non-empty the file starts with a
non-whitespace character. -/
theorem write_file_content_spec (content : List Char) :
    write_file_content content = pyStrip content ++ ['\n'] ∧
    (write_file_content content).getLast? = some '\n' ∧
    (∀ c, (write_file_content content).dropLast.getLast? = some c →
      isPySpace c = false) ∧
    (pyStrip content ≠ [] → ∀ c, (write_file_content content).head? = some c →
      isPySpace c = false) := by
  refine ⟨rfl, ?_, ?_, ?_⟩
  · exact List.getLast?_concat _
  · intro c hc
    rw [write_file_content, List.dropLast_concat] at hc
    exact getLast?_pyStrip content c hc
  · intro hne c hc
    rcases hps : pyStrip content with _ | ⟨a, tl⟩
    · exact absurd hps hne
    · rw [write_file_content, hps] at hc
      simp only [List.cons_append, List.head?_cons, Option.some.injEq] at hc
      apply head?_pyStrip content c
      rw [hps, ← hc]
      rfl

/-- Witness for C8 at `content = "  hi \n"`: the written bytes are `"hi\n"`,
and the inner hypotheses are discharged at the concrete characters. -/
theorem write_file_content_spec_witness :
    write_file_content "  hi \n".data = "hi\n".data ∧
    isPySpace 'i' = false ∧ isPySpace 'h' = false :=
  ⟨by decide,
   (write_file_content_spec "  hi \n".data).2.2.1 'i' (by decide),
   (write_file_content_spec "  hi \n".data).2.2.2 (by decide) 'h' (by decide)⟩

/-- C9 counterexample: `main` calls `write_file` sixteen times, not
fourteen — the claim "main creates exactly 14 files" is false. -/
theorem mainPaths_count_not_fourteen : ¬ (mainPaths.length = 14) := by decide

/-- C9 (amended): every file `main` creates lies under the relative
directory prefix `scarab/` (each path is a fixed relative literal joined
under "scarab"), and `main` creates exactly sixteen files. -/
theorem mainPaths_under_scarab :
    (mainPaths.all
      (fun p => List.isPrefixOf "scarab/".data (write_file_path p.data))) = true ∧
    mainPaths.length = 16 := by
  constructor
  · decide
  · decide

/-- Running a write script changes nothing at a path it never writes. -/
theorem runScript_unwritten (script : List (String × String))
    (fs : String → Option String) (q : String)
    (h : ∀ pc ∈ script, pc.1 ≠ q) : runScript script fs q = fs q := by
  induction script generalizing fs with
  | nil => rfl
  | cons pc rest ih =>
      have hpc : pc.1 ≠ q := h pc (List.mem_cons_self pc rest)
      have hrest : ∀ pc' ∈ rest, pc'.1 ≠ q := fun pc' hm => h pc' (List.mem_cons_of_mem pc hm)
      calc runScript (pc :: rest) fs q
          = runScript rest (fsWrite pc.1 pc.2 fs) q := rfl
        _ = fsWrite pc.1 pc.2 fs q := ih _ hrest
        _ = fs q := by
              unfold fsWrite
              rw [if_neg (fun hqe => hpc hqe.symm)]

/-- Two runs of the same write script agree at `q` whenever the two initial
file systems agree at `q`. -/
theorem runScript_congrAt (script : List (String × String))
    (fs fs' : String → Option String) (q : String) (h : fs q = fs' q) :
    runScript script fs q = runScript script fs' q := by
  induction script generalizing fs fs' with
  | nil => exact h
  | cons pc rest ih =>
      show runScript rest (fsWrite pc.1 pc.2 fs) q
          = runScript rest (fsWrite pc.1 pc.2 fs') q
      apply ih
      unfold fsWrite
      by_cases hq : q = pc.1
      · rw [if_pos hq, if_pos hq]
      · rw [if_neg hq, if_neg hq]; exact h

/-- Two runs of the same write script agree at every path the script
writes, whatever the initial file systems were. -/
theorem runScript_written (script : List (String × String))
    (fs fs' : String → Option String) (q : String)
    (h : ∃ pc ∈ script, pc.1 = q) :
    runScript script fs q = runScript script fs' q := by
  induction script generalizing fs fs' with
  | nil => simp at h
  | cons pc rest ih =>
      by_cases hq : pc.1 = q
      · show runScript rest (fsWrite pc.1 pc.2 fs) q
            = runScript rest (fsWrite pc.1 pc.2 fs') q
        apply runScript_congrAt
        unfold fsWrite
        rw [if_pos hq.symm, if_pos hq.symm]
      · rcases h with ⟨pc', hm, hpc'⟩
        rcases List.mem_cons.mp hm with heq | hmr
        · exact absurd (heq ▸ hpc') hq
        · exact ih _ _ ⟨pc', hmr, hpc'⟩

/-- C10: running `main` is idempotent on the file tree — running it twice
in succession leaves every file with exactly the contents of running it
once, for every fixed content assignment and every starting file system
(each write truncates and writes a fixed literal, reading no file-system
state). -/
theorem main_idempotent (content : Nat → String) (fs : String → Option String) :
    runMain content (runMain content fs) = runMain content fs := by
  funext q
  by_cases h : ∃ pc ∈ mainScript content, pc.1 = q
  · exact runScript_written (mainScript content) _ _ q h
  · push_neg at h
    show runScript (mainScript content) (runMain content fs) q = runMain content fs q
    exact runScript_unwritten (mainScript content) _ q h

/-- Witness for C10: a second run of `main` over the file tree a first run
produced, starting from an empty file system with every content fixed to
`"x"`, changes nothing. -/
theorem main_idempotent_witness :
    runMain (fun _ => "x") (runMain (fun _ => "x") (fun _ => none)) =
      runMain (fun _ => "x") (fun _ => none) :=
  main_idempotent (fun _ => "x") (fun _ => none)

/-- C4: the generated `Cell` is a `#[repr(C)]`, trivially copyable
(`Copy` + `Pod`) record whose fields are, in declared order, a `u32`
codepoint (`char_codepoint`), a `u32` packed-RGBA foreground (`fg`), a
`u32` packed-RGBA background (`bg`) and a `u8` style-flags byte (`flags`),
followed by an explicit `[u8; 3]` padding field; the explicit field order
and padding give it a fixed 16-byte layout identical across processes. -/
theorem cell_layout_spec :
    Cell_decl.reprC = true ∧
    Cell_decl.fields.map RField.fname =
      ["char_codepoint", "fg", "bg", "flags", "_padding"] ∧
    Cell_decl.fields.map RField.ftype =
      [some "u32", some "u32", some "u32", some "u8", some "[u8; 3]"] ∧
    "Copy" ∈ Cell_decl.derives ∧ "Pod" ∈ Cell_decl.derives ∧
    declSize Cell_decl = some 16 := by
  refine ⟨rfl, rfl, rfl, ?_, ?_, rfl⟩ <;> decide

/-- C2 (the generated code at the failing point): `SharedState` does carry
`sequence_number: u64`, `dirty_flag: u8`, `cursor_x: u16` and
`cursor_y: u16`, but its cell-buffer field is emitted as `pub cells:,` —
named `cells`, with no type at all — no field named `buffers` (let alone of
type `[Grid; 2]`) exists, and the only size constant generated is
`BUFFER_SIZE = GRID_WIDTH * GRID_HEIGHT`, a single grid's cell count, not
`header + 2 × (width × height × sizeof(Cell))`. -/
theorem sharedState_generated_truncated :
    SharedState_decl.fields.map RField.fname =
      ["sequence_number", "dirty_flag", "cursor_x", "cursor_y", "_padding", "cells"] ∧
    SharedState_decl.fields.map RField.ftype =
      [some "u64", some "u8", some "u16", some "u16", some "[u8; 3]", none] ∧
    (SharedState_decl.fields.any
      (fun f => f.fname == "cells" && f.ftype == none)) = true ∧
    (SharedState_decl.fields.all (fun f => !(f.fname == "buffers"))) = true ∧
    declSize SharedState_decl = none ∧
    BUFFER_SIZE = GRID_WIDTH * GRID_HEIGHT := by
  refine ⟨rfl, rfl, ?_, ?_, rfl, rfl⟩ <;> decide

/-- C5: the grid dimensions generated into the protocol crate are the
compile-time constants `GRID_WIDTH = 200` and `GRID_HEIGHT = 100` — both
within the `≤ 200 × 100` bound, and fixed for the lifetime of the segment
because they are `const` items — and every Grid cell array has exactly
`width × height` cells. -/
theorem grid_dimensions_bounded :
    GRID_WIDTH = 200 ∧ GRID_HEIGHT = 100 ∧
    GRID_WIDTH ≤ 200 ∧ GRID_HEIGHT ≤ 100 ∧
    BUFFER_SIZE = GRID_WIDTH * GRID_HEIGHT ∧
    ∀ g : GridM, g.1.length = GRID_WIDTH * GRID_HEIGHT :=
  ⟨rfl, rfl, Nat.le_refl _, Nat.le_refl _, rfl, fun g => g.2⟩

/-- Witness for C5: the all-blank grid has exactly
`GRID_WIDTH * GRID_HEIGHT` cells. -/
theorem grid_dimensions_bounded_witness :
    (⟨List.replicate BUFFER_SIZE blankCell, List.length_replicate _ _⟩ : GridM).1.length =
      GRID_WIDTH * GRID_HEIGHT :=
  grid_dimensions_bounded.2.2.2.2.2
    ⟨List.replicate BUFFER_SIZE blankCell, List.length_replicate _ _⟩

/-! Seqlock double-buffer protocol lemmas. -/

/-- A publisher step never decreases the sequence number. -/
theorem wstep_seq_le (pub : Nat → List CellM) (s t : Store) (h : WStep pub s t) :
    s.seq ≤ t.seq := by
  rcases h with ⟨h1, _⟩ | ⟨h1, _, _⟩ <;> omega

/-- A publisher step preserves the stable-slot invariant. -/
theorem wstep_inv (pub : Nat → List CellM) (s t : Store) (hs : Inv pub s)
    (h : WStep pub s t) : Inv pub t := by
  rcases h with ⟨h1, h2⟩ | ⟨h1, h2, h3⟩
  · show slotOf t t.seq = pub t.seq
    rw [h1, h2]
    exact hs
  · exact h2

/-- Along a trace of publisher steps the sequence number is monotone. -/
theorem trace_seq_mono (pub : Nat → List CellM) (trace : Nat → Store) (m : Nat)
    (hstep : ∀ j, j < m → WStep pub (trace j) (trace (j + 1))) :
    ∀ j k, j ≤ k → k ≤ m → (trace j).seq ≤ (trace k).seq := by
  intro j k
  induction k with
  | zero =>
      intro hjk _
      rw [Nat.le_zero.mp hjk]
  | succ n ih =>
      intro hjk hnm
      by_cases hj : j = n + 1
      · rw [hj]
      · have hj' : j ≤ n := Nat.lt_succ_iff.mp (Nat.lt_of_le_of_ne hjk hj)
        have h1 := ih hj' (Nat.le_of_succ_le hnm)
        have h2 := wstep_seq_le pub _ _ (hstep n (Nat.lt_of_succ_le hnm))
        omega

/-- Along a trace of publisher steps the stable-slot invariant holds
everywhere, given it holds initially. -/
theorem trace_inv (pub : Nat → List CellM) (trace : Nat → Store) (m : Nat)
    (hstep : ∀ j, j < m → WStep pub (trace j) (trace (j + 1)))
    (hinv : Inv pub (trace 0)) :
    ∀ j, j ≤ m → Inv pub (trace j) := by
  intro j
  induction j with
  | zero => intro _; exact hinv
  | succ n ih =>
      intro hnm
      exact wstep_inv pub _ _ (ih (Nat.le_of_succ_le hnm))
        (hstep n (Nat.lt_of_succ_le hnm))

/-- If the sequence number is the same at the two ends of a trace, then the
slot it selects was never written during the trace: its contents at every
intermediate instant equal its initial contents. -/
theorem trace_slot_frozen (pub : Nat → List CellM) (trace : Nat → Store) (m : Nat)
    (hstep : ∀ j, j < m → WStep pub (trace j) (trace (j + 1)))
    (hseq : (trace m).seq = (trace 0).seq) :
    ∀ j, j ≤ m → slotOf (trace j) ((trace 0).seq) = slotOf (trace 0) ((trace 0).seq) := by
  have hsame : ∀ j, j ≤ m → (trace j).seq = (trace 0).seq := by
    intro j hj
    have h1 := trace_seq_mono pub trace m hstep 0 j (Nat.zero_le j) hj
    have h2 := trace_seq_mono pub trace m hstep j m hj (Nat.le_refl m)
    omega
  intro j
  induction j with
  | zero => intro _; rfl
  | succ n ih =>
      intro hnm
      have hn : n ≤ m := Nat.le_of_succ_le hnm
      have hs_n := hsame n hn
      have hs_n1 := hsame (n + 1) hnm
      rcases hstep n (Nat.lt_of_succ_le hnm) with ⟨h1, h2⟩ | ⟨h1, _, _⟩
      · rw [hs_n] at h2
        rw [h2]
        exact ih hn
      · omega

/-- C3: for the lifetime of the segment the sequence number is monotone —
each step of the publisher either leaves it unchanged (a cell write) or is
a publish, which increments it by exactly one, so any reader observes
non-decreasing values across successive reads — and at every instant the
slot selected by its low bit is the stable, fully-written grid of the
latest publish. -/
theorem seq_monotone_slot_select (pub : Nat → List CellM) (trace : Nat → Store)
    (m : Nat) (hstep : ∀ j, j < m → WStep pub (trace j) (trace (j + 1)))
    (hinv : Inv pub (trace 0)) :
    (∀ j k, j ≤ k → k ≤ m → (trace j).seq ≤ (trace k).seq) ∧
    (∀ j, j < m →
      (trace (j + 1)).seq = (trace j).seq ∨
      (trace (j + 1)).seq = (trace j).seq + 1) ∧
    (∀ j, j ≤ m → slotOf (trace j) ((trace j).seq) = pub ((trace j).seq)) := by
  refine ⟨trace_seq_mono pub trace m hstep, ?_, ?_⟩
  · intro j hj
    rcases hstep j hj with ⟨h1, _⟩ | ⟨h1, _, _⟩
    · exact Or.inl h1
    · exact Or.inr h1
  · intro j hj
    exact trace_inv pub trace m hstep hinv j hj

/-- Witness for C3: on the one-instant trace whose store is
`⟨0, [blankCell], []⟩` with published history constantly `[blankCell]`, the
slot selected by the low bit of the sequence number holds the published
grid. -/
theorem seq_monotone_slot_select_witness :
    slotOf (⟨0, [blankCell], []⟩ : Store) 0 = [blankCell] :=
  (seq_monotone_slot_select (fun _ => [blankCell])
    (fun _ => (⟨0, [blankCell], []⟩ : Store)) 0
    (fun j hj => absurd hj (Nat.not_lt_zero j)) rfl).2.2 0 (Nat.le_refl 0)

/-- A `getD` at an in-range index is a `get`. -/
theorem getD_fin {α : Type} [Inhabited α] (l : List α) (i : Fin l.length) :
    l.getD i.1 default = l.get i := by
  simp [List.getD_eq_getElem?_getD, List.getElem?_eq_getElem i.isLt,
    List.get_eq_getElem]

/-- C1: consistency of the seqlock read protocol.  For any interleaving of
publisher micro-steps with a reader's cell-by-cell copy (the reader copies
cell `i` of slot `s1 & 1` at the arbitrary trace instant `f i`), if the
sequence number the reader re-reads at the end of the copy equals the `s1`
it read at the start, the assembled snapshot equals — field for field — the
one Grid published with sequence number `s1`, never a mixture of two
frames. -/
theorem snapshot_consistent (pub : Nat → List CellM) (trace : Nat → Store)
    (m : Nat) (hstep : ∀ j, j < m → WStep pub (trace j) (trace (j + 1)))
    (hinv : Inv pub (trace 0))
    (f : Nat → Nat) (hf : ∀ i, f i ≤ m)
    (hseq : (trace m).seq = (trace 0).seq) :
    snapshotRead trace ((trace 0).seq) f (pub ((trace 0).seq)).length =
      pub ((trace 0).seq) := by
  have hfreeze : ∀ i : Fin (pub ((trace 0).seq)).length,
      slotOf (trace (f i.1)) ((trace 0).seq) = pub ((trace 0).seq) := by
    intro i
    rw [trace_slot_frozen pub trace m hstep hseq (f i.1) (hf i.1)]
    exact hinv
  unfold snapshotRead
  calc List.ofFn (fun i : Fin (pub ((trace 0).seq)).length =>
          (slotOf (trace (f i.1)) ((trace 0).seq)).getD i.1 default)
      = List.ofFn (pub ((trace 0).seq)).get := by
        apply congrArg List.ofFn
        funext i
        rw [hfreeze i]
        exact getD_fin _ i
    _ = pub ((trace 0).seq) := List.ofFn_get _

/-- Witness for C1: a zero-step interleaving on store `⟨0, [blankCell], []⟩`
with published history constantly `[blankCell]`; the snapshot the reader
assembles is that published grid. -/
theorem snapshot_consistent_witness :
    snapshotRead (fun _ => (⟨0, [blankCell], []⟩ : Store)) 0 (fun _ => 0)
      [blankCell].length = [blankCell] :=
  snapshot_consistent (fun _ => [blankCell])
    (fun _ => (⟨0, [blankCell], []⟩ : Store)) 0
    (fun j hj => absurd hj (Nat.not_lt_zero j)) rfl
    (fun _ => 0) (fun _ => Nat.le_refl 0) rfl

/-- Feeding a stream chunk by chunk is the same as feeding its
concatenation: the partial-sequence state carried in `pstate` makes the
engine's result a function of the cumulative input only, not of how the
bytes were split across `feed` calls. -/
theorem feed_flatten (e : Emu) (chunks : List (List Nat)) :
    chunks.foldl feed e = feed e chunks.flatten :=
  (List.foldl_flatten emuStep e chunks).symm

/-- C7: replay determinism of the emulation engine.  The output is a
deterministic function of the initial state and the cumulative input:
feeding the same byte stream from the same initial emulator state — however
the stream is chunked across `feed` calls, and in particular feeding it
twice identically — produces identical emulator states and hence identical
Grids. -/
theorem replay_deterministic (e : Emu) (chunksA chunksB : List (List Nat))
    (h : chunksA.flatten = chunksB.flatten) :
    chunksA.foldl feed e = chunksB.foldl feed e ∧
    (chunksA.foldl feed e).rows = (chunksB.foldl feed e).rows := by
  have heq : chunksA.foldl feed e = chunksB.foldl feed e := by
    rw [feed_flatten, feed_flatten, h]
  exact ⟨heq, congrArg Emu.rows heq⟩

/-- Witness for C7: the stream `"hi"` fed in one chunk and in two chunks,
from a blank 4×2 screen, yields identical states and grids. -/
theorem replay_deterministic_witness :
    [[104, 105]].foldl feed (⟨4, 2, [blankRow 4, blankRow 4], 0, 0, 0, 0, 0, .ground⟩ : Emu) =
      [[104], [105]].foldl feed (⟨4, 2, [blankRow 4, blankRow 4], 0, 0, 0, 0, 0, .ground⟩ : Emu) ∧
    ([[104, 105]].foldl feed (⟨4, 2, [blankRow 4, blankRow 4], 0, 0, 0, 0, 0, .ground⟩ : Emu)).rows =
      ([[104], [105]].foldl feed (⟨4, 2, [blankRow 4, blankRow 4], 0, 0, 0, 0, 0, .ground⟩ : Emu)).rows :=
  replay_deterministic ⟨4, 2, [blankRow 4, blankRow 4], 0, 0, 0, 0, 0, .ground⟩
    [[104, 105]] [[104], [105]] rfl

/-! Control-channel framing lemmas. -/

/-- Decoding one frame off the front of a stream inverts encoding: the
frame is recovered exactly and the rest of the stream is untouched, so
frames are discrete and arrive in order. -/
theorem decodeFrame_encodeFrame (m : ControlMessage) (rest : List Nat)
    (h : validMsg m = true) :
    decodeFrame (encodeFrame m ++ rest) = some (m, rest) := by
  cases m with
  | Resize c r =>
      simp only [validMsg, Bool.and_eq_true, decide_eq_true_eq] at h
      obtain ⟨hc, hr⟩ := h
      have hshape : encodeFrame (.Resize c r) ++ rest =
          4 :: 0 :: 0 :: 0 :: 0 ::
            (c % 256 :: c / 256 % 256 :: r % 256 :: r / 256 % 256 :: rest) := by
        simp [encodeFrame, u32le, u16le, payloadOf, tagOf]
      rw [hshape]
      simp only [decodeFrame, List.length_cons]
      norm_num [List.take, List.drop]
      constructor <;> omega
  | Input d =>
      simp only [validMsg, decide_eq_true_eq] at h
      have hshape : encodeFrame (.Input d) ++ rest =
          d.length % 256 :: d.length / 256 % 256 :: d.length / 65536 % 256 ::
            d.length / 16777216 % 256 :: 1 :: (d ++ rest) := by
        simp [encodeFrame, u32le, payloadOf, tagOf]
      rw [hshape]
      simp only [decodeFrame]
      have hlen : d.length % 256 + 256 * (d.length / 256 % 256) +
          65536 * (d.length / 65536 % 256) +
          16777216 * (d.length / 16777216 % 256) = d.length := by omega
      rw [hlen]
      rw [if_pos (by simp [List.length_append])]
      rw [if_neg (by omega), if_pos trivial]
      rw [List.take_left' rfl, List.drop_left' rfl]
  | LoadPlugin p =>
      simp only [validMsg, decide_eq_true_eq] at h
      have hshape : encodeFrame (.LoadPlugin p) ++ rest =
          p.length % 256 :: p.length / 256 % 256 :: p.length / 65536 % 256 ::
            p.length / 16777216 % 256 :: 2 :: (p ++ rest) := by
        simp [encodeFrame, u32le, payloadOf, tagOf]
      rw [hshape]
      simp only [decodeFrame]
      have hlen : p.length % 256 + 256 * (p.length / 256 % 256) +
          65536 * (p.length / 65536 % 256) +
          16777216 * (p.length / 16777216 % 256) = p.length := by omega
      rw [hlen]
      rw [if_pos (by simp [List.length_append])]
      rw [if_neg (by omega), if_neg (by omega), if_pos trivial]
      rw [List.take_left' rfl, List.drop_left' rfl]

/-- An encoded frame is never empty (it starts with its four length
bytes). -/
theorem encodeFrame_ne_nil (m : ControlMessage) : encodeFrame m ≠ [] := by
  cases m <;> simp [encodeFrame, u32le]

/-- Decoding a concatenation of encoded frames recovers exactly the encoded
messages, in order. -/
theorem decodeStream_frames (msgs : List ControlMessage)
    (h : ∀ m ∈ msgs, validMsg m = true) :
    decodeStream msgs.length ((msgs.map encodeFrame).flatten) = some msgs := by
  induction msgs with
  | nil => rfl
  | cons m tl ih =>
      have hm : validMsg m = true := h m (List.mem_cons_self m tl)
      have htl : ∀ m' ∈ tl, validMsg m' = true :=
        fun m' hm' => h m' (List.mem_cons_of_mem m hm')
      show decodeStream (tl.length + 1)
          (encodeFrame m ++ (tl.map encodeFrame).flatten) = some (m :: tl)
      rw [decodeStream]
      rw [if_neg (fun heq => encodeFrame_ne_nil m (List.append_eq_nil.mp heq).1)]
      rw [decodeFrame_encodeFrame m _ hm]
      show Option.map (fun ms => m :: ms)
          (decodeStream tl.length (tl.map encodeFrame).flatten) = some (m :: tl)
      rw [ih htl]
      rfl

/-- C6: `ControlMessage` is a tagged variant with exactly the three
alternatives `Resize{cols,rows}`, `Input{data}` and `LoadPlugin{path}` (as
generated into the protocol crate, and exhaustively in the model), and
messages travel as discrete, ordered, length-delimited
`[u32 length][tag byte][payload]` frames: decoding a stream of encoded
frames yields exactly the sent messages in their sent order.  The framing
involves no shared memory — it reads nothing but the byte stream. -/
theorem control_messages_framed :
    (ControlMessage_variants.map Prod.fst = ["Resize", "Input", "LoadPlugin"] ∧
     ControlMessage_variants.length = 3) ∧
    (∀ m : ControlMessage,
      (∃ c r, m = .Resize c r) ∨ (∃ d, m = .Input d) ∨ (∃ p, m = .LoadPlugin p)) ∧
    (∀ msgs : List ControlMessage, (∀ m ∈ msgs, validMsg m = true) →
      decodeStream msgs.length ((msgs.map encodeFrame).flatten) = some msgs) := by
  refine ⟨⟨rfl, rfl⟩, ?_, ?_⟩
  · intro m
    cases m with
    | Resize c r => exact Or.inl ⟨c, r, rfl⟩
    | Input d => exact Or.inr (Or.inl ⟨d, rfl⟩)
    | LoadPlugin p => exact Or.inr (Or.inr ⟨p, rfl⟩)
  · intro msgs h
    exact decodeStream_frames msgs h

/-- Witness for C6: a resize, an input chunk and a plugin-load message,
framed and concatenated, decode back to exactly those three messages in
order. -/
theorem control_messages_framed_witness :
    decodeStream 3
      (([ControlMessage.Resize 80 24, ControlMessage.Input [104, 105],
         ControlMessage.LoadPlugin [47, 112, 46, 102, 122, 98]].map encodeFrame).flatten) =
      some [ControlMessage.Resize 80 24, ControlMessage.Input [104, 105],
        ControlMessage.LoadPlugin [47, 112, 46, 102, 122, 98]] :=
  control_messages_framed.2.2
    [ControlMessage.Resize 80 24, ControlMessage.Input [104, 105],
     ControlMessage.LoadPlugin [47, 112, 46, 102, 122, 98]]
    (by decide)

end Scarab
